import Mathlib

set_option maxRecDepth 4000000
set_option maxHeartbeats 2000000

/-!
Verification of the Campus Copilot NLP core (`src/nlp_processor.py`).

The Python strings are modelled as lists of characters (`Str`); the external
machine-learning capabilities (sentence-embedding model, cosine similarity,
zero-shot classifier, linguistic parser) are modelled as a black-box `Models`
record, exactly the role they play in the source: the code only consumes their
outputs.  Python exceptions are modelled with `Except String`; a `.error`
value marks an exception escaping the modelled function.  Cosine similarities
are exact rationals; `qadd`/`qdiv`/`qsum`/`mean` are kernel-reducible
implementations of rational `+`, `/`, sum and arithmetic mean, proved equal to
the Mathlib operations in `qadd_eq`, `qdiv_eq`, `qsum_eq`, `mean_eq`.
-/

namespace CampusCopilot

/-- Python strings, modelled as lists of characters. -/
abbrev Str := List Char

/-- Literal conversion from Lean string literals. -/
def str (s : String) : Str := s.data

/-- Python `s.lower()` (inputs here are ASCII). -/
def lower (s : Str) : Str := s.map Char.toLower

/-- Tests whether the first list is an initial segment of the second. -/
def begins : Str → Str → Bool
  | [], _ => true
  | _ :: _, [] => false
  | p :: ps, c :: cs => p = c && begins ps cs

/-- Splits a string at the first occurrence of `pat`, returning the part
before and the part after; `none` when `pat` does not occur. -/
def splitFirst (pat : Str) : Str → Option (Str × Str)
  | [] => if pat = [] then some ([], []) else none
  | c :: rest =>
    if begins pat (c :: rest) then some ([], (c :: rest).drop pat.length)
    else (splitFirst pat rest).map fun p => (c :: p.1, p.2)

/-- Python `pat in s` (substring containment). -/
def containsSub (s pat : Str) : Bool := (splitFirst pat s).isSome

/-- Python `s.split(pat, 1)[1]`: everything after the first occurrence of
`pat`; junk value `[]` when `pat` does not occur (the source always guards
this with a containment test first). -/
def afterFirst (s pat : Str) : Str := ((splitFirst pat s).map Prod.snd).getD []

/-- Python `s.split("\n")[0]`. -/
def beforeNewline (s : Str) : Str := s.takeWhile (· ≠ '\n')

/-- Python whitespace characters for `str.strip()`. -/
def isPySpace (c : Char) : Bool :=
  c = ' ' || c = '\t' || c = '\n' || c = '\r' || c = Char.ofNat 11 || c = Char.ofNat 12

/-- Python `s.strip()`. -/
def strip (s : Str) : Str :=
  ((s.dropWhile isPySpace).reverse.dropWhile isPySpace).reverse

/-- Kernel-reducible rational addition (see `qadd_eq`). -/
def qadd (a b : ℚ) : ℚ := Rat.divInt (a.num * b.den + a.den * b.num) (a.den * b.den)

/-- Kernel-reducible rational division (see `qdiv_eq`). -/
def qdiv (a b : ℚ) : ℚ := Rat.divInt (a.num * b.den) (a.den * b.num)

/-- Kernel-reducible rational list sum (see `qsum_eq`). -/
def qsum : List ℚ → ℚ
  | [] => 0
  | x :: xs => qadd x (qsum xs)

/-- Arithmetic mean of a list of rationals, as computed by `numpy` `.mean()`
on the 1×n cosine-similarity matrix (see `mean_eq`). -/
def mean (l : List ℚ) : ℚ := qdiv (qsum l) (l.length : ℚ)

lemma qadd_eq (a b : ℚ) : qadd a b = a + b := (Rat.add_num_den a b).symm

lemma qdiv_eq (a b : ℚ) : qdiv a b = a / b := (Rat.div_def' a b).symm

lemma qsum_eq (l : List ℚ) : qsum l = l.sum := by
  induction l with
  | nil => rfl
  | cons x xs ih => rw [qsum, qadd_eq, ih, List.sum_cons]

lemma mean_eq (l : List ℚ) : mean l = l.sum / (l.length : ℚ) := by
  rw [mean, qdiv_eq, qsum_eq]

/-- A spaCy token: its text and its `like_num` attribute. -/
structure Token where
  text : Str
  like_num : Bool
deriving DecidableEq

/-- A spaCy named entity: its text and its `label_` attribute. -/
structure Ent where
  text : Str
  label : Str
deriving DecidableEq

/-- A spaCy document: the token sequence and the recognized named entities. -/
structure Doc where
  tokens : List Token
  ents : List Ent
deriving DecidableEq

/-- The black-box external capabilities consumed by `NLPProcessor`:
`encode` is `self.sentence_model.encode`, `cos` is pairwise
`sklearn` `cosine_similarity`, `zeroShot` is `self.classifier`
(`none` models a runtime failure of the zero-shot model), and `nlp` is the
spaCy pipeline `self.nlp`. -/
structure Models where
  encode : Str → List ℚ
  cos : List ℚ → List ℚ → ℚ
  zeroShot : Str → List Str → Option (List Str)
  nlp : Str → Doc

/-- The Python dict of extracted entities, as an insertion-ordered
association list. -/
abbrev Entities := List (Str × Str)

/-- Python dict assignment `m[k] = v` (replace in place, else append). -/
def setk : Entities → Str → Str → Entities
  | [], k, v => [(k, v)]
  | (k', v') :: rest, k, v =>
    if k' = k then (k, v) :: rest else (k', v') :: setk rest k v

/-- Python dict lookup `m.get(k)`. -/
def getk : Entities → Str → Option Str
  | [], _ => none
  | (k', v') :: rest, k => if k' = k then some v' else getk rest k

/-- The intent catalog `self.intents` from `NLPProcessor.__init__`, in the
source's insertion order. -/
def intents : List (Str × List Str) :=
  [ (str "get_schedule",
      [str "schedule", str "my classes", str "timetable", str "my next class",
       str "what am i doing today"]),
    (str "get_events",
      [str "events", str "upcoming events", str "what's happening",
       str "campus activities", str "events this week"]),
    (str "create_reminder",
      [str "remind me", str "set a reminder", str "add reminder", str "new reminder"]),
    (str "get_deadlines",
      [str "deadlines", str "assignments due", str "when is this due",
       str "submission dates"]),
    (str "find_location",
      [str "where is", str "find", str "locate", str "directions to",
       str "how to get to"]),
    (str "get_faculty_info",
      [str "faculty", str "professor", str "teacher", str "contact professor"]),
    (str "get_club_info",
      [str "clubs", str "student organizations", str "club activities"]),
    (str "summarize_text",
      [str "summarize", str "condense", str "shorten", str "give me a summary"]),
    (str "generate_poster",
      [str "create poster", str "make poster", str "design poster", str "event poster"]),
    (str "general_greeting",
      [str "hi", str "hello", str "hey", str "greetings"]),
    (str "general_thanks",
      [str "thank you", str "thanks", str "appreciate it"]),
    (str "general_unclear",
      [str "i don't understand", str "what can you do", str "help me"]) ]

/-- The precomputed `self.intent_embeddings` table. -/
def intent_embeddings (M : Models) : List (Str × List (List ℚ)) :=
  intents.map fun p => (p.1, p.2.map M.encode)

/-- One step of the similarity maximum fold in `classify_intent`. -/
def simStep (acc p : Str × ℚ) : Str × ℚ := if acc.2 < p.2 then p else acc

/-- The per-intent mean cosine similarities of a text embedding, in catalog
order: `cosine_similarity(text_embedding, embeddings).mean()` per intent. -/
def simsList (M : Models) (text_embedding : List ℚ) : List (Str × ℚ) :=
  (intent_embeddings M).map fun p => (p.1, mean (p.2.map fun e => M.cos text_embedding e))

/-- The similarity loop of `classify_intent` (lines 61-68): starts from
`("general_unclear", -1)` and keeps the strictly larger mean similarity. -/
def similarity_loop (M : Models) (text_embedding : List ℚ) : Str × ℚ :=
  (simsList M text_embedding).foldl simStep (str "general_unclear", -1)

/-- The fixed similarity threshold `0.5` of `classify_intent`, written as
`mkRat 1 2` so that it reduces in the kernel; `threshold_eq` relates it to
`1/2`. -/
def threshold : ℚ := mkRat 1 2

lemma threshold_eq : threshold = 1/2 := by
  rw [threshold, Rat.mkRat_eq_divInt, Rat.divInt_eq_div]
  norm_num

/-- `NLPProcessor.classify_intent`.  A `.error` result models a Python
exception escaping the method (zero-shot model failure, or `labels[0]` on an
empty label list). -/
def classify_intent (M : Models) (text : Str) : Except String Str :=
  let text_embedding := M.encode text
  let r := similarity_loop M text_embedding
  let candidate_labels := intents.map Prod.fst
  if r.2 < threshold then
    match M.zeroShot text candidate_labels with
    | none => .error "zero-shot classification failed"
    | some [] => .error "IndexError: list index out of range"
    | some (l :: _) => .ok l
  else .ok r.1

/-- The named-entity labels accepted by the `find_location` branch. -/
def locationLabels : List Str := [str "GPE", str "LOC", str "ORG", str "FAC"]

/-- The keyword fallback list of the `find_location` branch. -/
def location_keywords : List Str :=
  [str "library", str "gym", str "cafeteria", str "building", str "hall", str "room"]

/-- The `for ent in doc.ents` loop of the `find_location` branch: first
matching entity sets `location` and breaks. -/
def entsLoop (entities : Entities) : List Ent → Entities
  | [] => entities
  | e :: rest =>
    if e.label ∈ locationLabels then setk entities (str "location") e.text
    else entsLoop entities rest

/-- The `tomorrow`/`today` substring tests of the `create_reminder` loop body
(lines 106-109): `tomorrow` first, then `today`, each overwriting `date`. -/
def dateUpdate (token : Token) (entities : Entities) : Entities :=
  let e2 := if containsSub (lower token.text) (str "tomorrow")
            then setk entities (str "date") (str "tomorrow") else entities
  if containsSub (lower token.text) (str "today")
  then setk e2 (str "date") (str "today") else e2

/-- The `for token in doc` loop of the `create_reminder` branch.  For a
numeric token, `token.nbor()` is the next token and raises `IndexError`
(modelled by `.error`) when there is none; a qualifying neighbor stores
`duration`; then `dateUpdate` runs the `tomorrow`/`today` tests. -/
def reminderLoop (entities : Entities) : List Token → Except String Entities
  | [] => .ok entities
  | token :: rest =>
    if token.like_num then
      match rest.head? with
      | none => .error "IndexError"
      | some nb =>
        reminderLoop
          (dateUpdate token
            (if containsSub nb.text (str "hour") || containsSub nb.text (str "min")
             then setk entities (str "duration") (token.text ++ str " " ++ nb.text)
             else entities)) rest
    else reminderLoop (dateUpdate token entities) rest

/-- Python `text.split(marker, 1)[1].split("\n")[0].strip()` for the
`create_event` marker fields. -/
def eventField (text marker : Str) : Str := strip (beforeNewline (afterFirst text marker))

/-- The `create_event` branch of `extract_entities` (lines 117-131): six
independent marker tests, each adding its field when its literal marker
occurs in the raw text. -/
def eventBranch (text : Str) : Entities :=
  let entities : Entities := []
  let entities := if containsSub text (str "title:")
                  then setk entities (str "title") (eventField text (str "title:")) else entities
  let entities := if containsSub text (str "date:")
                  then setk entities (str "date") (eventField text (str "date:")) else entities
  let entities := if containsSub text (str "time:")
                  then setk entities (str "time") (eventField text (str "time:")) else entities
  let entities := if containsSub text (str "duration:")
                  then setk entities (str "duration") (eventField text (str "duration:")) else entities
  let entities := if containsSub text (str "location:")
                  then setk entities (str "location") (eventField text (str "location:")) else entities
  if containsSub text (str "description:")
  then setk entities (str "description") (eventField text (str "description:")) else entities

/-- `NLPProcessor.extract_entities`.  Dispatches on the intent string exactly
as the source's `if`/`elif` chain does. -/
def extract_entities (M : Models) (text intent : Str) : Except String Entities :=
  let doc := M.nlp text
  if intent = str "find_location" ∨ intent = str "get_directions" then
    let entities := entsLoop [] doc.ents
    .ok (if (getk entities (str "location")).getD [] = ([] : Str) then
           (if doc.tokens.any (fun t => decide (lower t.text ∈ location_keywords))
            then setk entities (str "location") text
            else entities)
         else entities)
  else if intent = str "create_reminder" then
    match reminderLoop [] doc.tokens with
    | .error e => .error e
    | .ok entities =>
      .ok (if containsSub (lower text) (str "remind me to ")
           then setk entities (str "reminder_text") (afterFirst (lower text) (str "remind me to "))
           else entities)
  else if intent = str "create_event" then
    .ok (eventBranch text)
  else .ok []

/-- The query result `{intent, entities, original_text}`. -/
structure QueryResult where
  intent : Str
  entities : Entities
  original_text : Str
deriving DecidableEq

/-- `NLPProcessor.process_query`: classify, extract, package. -/
def process_query (M : Models) (text : Str) : Except String QueryResult :=
  match classify_intent M text with
  | .error e => .error e
  | .ok intent =>
    match extract_entities M text intent with
    | .error e => .error e
    | .ok entities => .ok ⟨intent, entities, text⟩

/-! Helper lemmas about the dictionary model. -/

lemma getk_setk_same (m : Entities) (k v : Str) : getk (setk m k v) k = some v := by
  induction m with
  | nil => simp [setk, getk]
  | cons p rest ih =>
    by_cases h : p.1 = k
    · simp [setk, getk, h]
    · simpa [setk, getk, h] using ih

lemma getk_setk_ne (m : Entities) (k v k' : Str) (h : k ≠ k') :
    getk (setk m k v) k' = getk m k' := by
  induction m with
  | nil => simp [setk, getk, h]
  | cons p rest ih =>
    by_cases hp : p.1 = k
    · simp [setk, getk, hp, h]
    · by_cases hp' : p.1 = k'
      · simp [setk, getk, hp, hp', Ne.symm h]
      · simpa [setk, getk, hp, hp'] using ih

/-- Left-biased choice on `Option`, used to state "last occurrence wins". -/
def oget (a b : Option Str) : Option Str :=
  match a with
  | some v => some v
  | none => b

lemma oget_none_right (a : Option Str) : oget a none = a := by
  cases a <;> rfl

lemma oget_assoc (a b c : Option Str) : oget a (oget b c) = oget (oget a b) c := by
  cases a <;> cases b <;> rfl

/-! Specification functions for the `create_reminder` loop: the date value a
single token contributes, the date left by a whole token sequence
(last-written wins), and likewise for `duration`. -/

/-- The `date` value one loop iteration writes for a token: the `today` test
runs after the `tomorrow` test, so `today` wins inside a single token. -/
def dateOf (t : Token) : Option Str :=
  if containsSub (lower t.text) (str "today") then some (str "today")
  else if containsSub (lower t.text) (str "tomorrow") then some (str "tomorrow")
  else none

/-- The final `date` entry after scanning a token sequence: the last token
with a `tomorrow`/`today` occurrence wins. -/
def lastDate : List Token → Option Str
  | [] => none
  | t :: rest => oget (lastDate rest) (dateOf t)

/-- The `duration` value one loop iteration writes for a numeric token and
its immediate right neighbor. -/
def durOf (t nb : Token) : Option Str :=
  if t.like_num && (containsSub nb.text (str "hour") || containsSub nb.text (str "min"))
  then some (t.text ++ str " " ++ nb.text) else none

/-- The final `duration` entry after scanning a token sequence: the last
qualifying adjacent pair wins. -/
def lastDuration : List Token → Option Str
  | [] => none
  | [_] => none
  | t :: nb :: rest => oget (lastDuration (nb :: rest)) (durOf t nb)

lemma getk_dateUpdate_date (t : Token) (e : Entities) :
    getk (dateUpdate t e) (str "date") = oget (dateOf t) (getk e (str "date")) := by
  unfold dateUpdate dateOf
  cases h1 : containsSub (lower t.text) (str "today") <;>
    cases h2 : containsSub (lower t.text) (str "tomorrow") <;>
      simp [h1, h2, oget, getk_setk_same]

lemma getk_dateUpdate_ne (t : Token) (e : Entities) (k : Str) (h : k ≠ str "date") :
    getk (dateUpdate t e) k = getk e k := by
  unfold dateUpdate
  cases h1 : containsSub (lower t.text) (str "today") <;>
    cases h2 : containsSub (lower t.text) (str "tomorrow") <;>
      simp [h1, h2, getk_setk_ne _ _ _ _ (Ne.symm h)]

/-- What the `create_reminder` token loop leaves in the dictionary when it
terminates without raising: `date` and `duration` follow the last-written
values of the scan, every other key is untouched. -/
lemma reminderLoop_ok_getk (ts : List Token) : ∀ acc m : Entities,
    reminderLoop acc ts = .ok m →
    getk m (str "date") = oget (lastDate ts) (getk acc (str "date")) ∧
    getk m (str "duration") = oget (lastDuration ts) (getk acc (str "duration")) ∧
    ∀ k, k ≠ str "date" → k ≠ str "duration" → getk m k = getk acc k := by
  induction ts with
  | nil =>
    intro acc m h
    obtain rfl : acc = m := Except.ok.inj h
    simp [lastDate, lastDuration, oget]
  | cons t rest ih =>
    intro acc m h
    unfold reminderLoop at h
    cases hn : t.like_num with
    | false =>
      rw [hn] at h
      simp only [Bool.false_eq_true, if_false] at h
      obtain ⟨hd, hu, hk⟩ := ih (dateUpdate t acc) m h
      have hdu : durOf t = fun _ => none := by
        funext nb; simp [durOf, hn]
      refine ⟨?_, ?_, ?_⟩
      · rw [hd, getk_dateUpdate_date, oget_assoc]
        conv_rhs => rw [lastDate]
      · rw [hu, getk_dateUpdate_ne _ _ _ (by decide)]
        cases rest with
        | nil => rfl
        | cons nb rest' =>
          have : lastDuration (t :: nb :: rest') = lastDuration (nb :: rest') := by
            rw [lastDuration, hdu]
            simp [oget_none_right]
          rw [this]
      · intro k hk1 hk2
        rw [hk k hk1 hk2, getk_dateUpdate_ne _ _ _ hk1]
    | true =>
      rw [hn] at h
      simp only [if_true] at h
      cases rest with
      | nil => exact absurd h (by simp [List.head?])
      | cons nb rest' =>
        simp only [List.head?] at h
        obtain ⟨hd, hu, hk⟩ := ih (dateUpdate t
          (if containsSub nb.text (str "hour") || containsSub nb.text (str "min")
           then setk acc (str "duration") (t.text ++ str " " ++ nb.text) else acc)) m h
        refine ⟨?_, ?_, ?_⟩
        · rw [hd, getk_dateUpdate_date]
          have : getk (if containsSub nb.text (str "hour") || containsSub nb.text (str "min")
              then setk acc (str "duration") (t.text ++ str " " ++ nb.text) else acc)
              (str "date") = getk acc (str "date") := by
            split
            · rw [getk_setk_ne _ _ _ _ (by decide)]
            · rfl
          rw [this, oget_assoc]
          conv_rhs => rw [lastDate]
        · rw [hu, getk_dateUpdate_ne _ _ _ (by decide)]
          have : getk (if containsSub nb.text (str "hour") || containsSub nb.text (str "min")
              then setk acc (str "duration") (t.text ++ str " " ++ nb.text) else acc)
              (str "duration") = oget (durOf t nb) (getk acc (str "duration")) := by
            unfold durOf
            rw [hn]
            split
            · simp only [Bool.true_and, if_pos (by assumption)]
              rw [getk_setk_same]; rfl
            · simp only [Bool.true_and, if_neg (by assumption)]
              rfl
          rw [this, oget_assoc]
          conv_rhs => rw [lastDuration]
        · intro k hk1 hk2
          rw [hk k hk1 hk2, getk_dateUpdate_ne _ _ _ hk1]
          split
          · rw [getk_setk_ne _ _ _ _ (Ne.symm hk2)]
          · rfl

lemma lastDate_some (ts : List Token) (v : Str) (h : lastDate ts = some v) :
    v = str "today" ∨ v = str "tomorrow" := by
  induction ts with
  | nil => exact absurd h (by simp [lastDate])
  | cons t rest ih =>
    rw [lastDate] at h
    cases hr : lastDate rest with
    | some w => rw [hr] at h; exact ih (hr.trans (Option.some.inj (by rw [← h]; rfl)))
    | none =>
      rw [hr] at h
      simp only [oget] at h
      unfold dateOf at h
      split at h
      · exact Or.inl (Option.some.inj h).symm
      · split at h
        · exact Or.inr (Option.some.inj h).symm
        · exact absurd h (by simp)

lemma lastDuration_ne_nil (ts : List Token) (v : Str) (h : lastDuration ts = some v) :
    v ≠ [] := by
  induction ts with
  | nil => exact absurd h (by simp [lastDuration])
  | cons t rest ih =>
    cases rest with
    | nil => exact absurd h (by simp [lastDuration])
    | cons nb rest' =>
      rw [lastDuration] at h
      cases hr : lastDuration (nb :: rest') with
      | some w =>
        rw [hr] at h
        exact ih (hr.trans (by simp only [oget] at h; rw [h]))
      | none =>
        rw [hr] at h
        simp only [oget] at h
        unfold durOf at h
        split at h
        · obtain rfl : t.text ++ str " " ++ nb.text = v := Option.some.inj h
          intro h0
          simp [List.append_eq_nil, str] at h0
        · exact absurd h (by simp)

lemma lastDuration_append_pair (pre : List Token) (t nb : Token) (v : Str)
    (h : durOf t nb = some v) : lastDuration (pre ++ [t, nb]) = some v := by
  induction pre with
  | nil => simp [lastDuration, h, oget]
  | cons x pre' ih =>
    cases hp : pre' ++ [t, nb] with
    | nil => simp [List.append_eq_nil] at hp
    | cons y l =>
      rw [List.cons_append, hp, lastDuration, ← hp, ih]
      rfl

/-! Characterization of the similarity maximum loop. -/

/-- `x` has a similarity at least as large as every entry of `l`. -/
def isTop (l : List (Str × ℚ)) (x : Str × ℚ) : Bool :=
  l.all fun q => decide (q.2 ≤ x.2)

/-- The first entry of `l` attaining the maximal similarity of `l`:
the argmax with deterministic first-in-catalog-order tie-breaking. -/
def firstMax (l : List (Str × ℚ)) : Option (Str × ℚ) := l.find? (isTop l)

/-- Full characterization of the fold in `classify_intent`: either no entry
exceeds the initial similarity and the initial pair survives, or the result
is the first entry strictly above the initial similarity that no other entry
exceeds. -/
lemma foldl_simStep_char (l : List (Str × ℚ)) : ∀ init : Str × ℚ,
    ((∀ p ∈ l, p.2 ≤ init.2) ∧ l.foldl simStep init = init)
    ∨ (∃ l₁ l₂, l = l₁ ++ l.foldl simStep init :: l₂ ∧
         init.2 < (l.foldl simStep init).2 ∧
         (∀ p ∈ l₁, p.2 < (l.foldl simStep init).2) ∧
         (∀ p ∈ l₂, p.2 ≤ (l.foldl simStep init).2)) := by
  induction l with
  | nil =>
    intro init
    exact Or.inl ⟨by simp, rfl⟩
  | cons p rest ih =>
    intro init
    rw [List.foldl_cons]
    by_cases h : init.2 < p.2
    · have hs : simStep init p = p := by simp [simStep, h]
      rw [hs]
      rcases ih p with ⟨hall, heq⟩ | ⟨l₁, l₂, hsp, hlt, hbef, haft⟩
      · rw [heq]
        exact Or.inr ⟨[], rest, by simp, h, by simp, hall⟩
      · refine Or.inr ⟨p :: l₁, l₂, by rw [List.cons_append, ← hsp], lt_trans h hlt, ?_, haft⟩
        intro q hq
        rcases List.mem_cons.mp hq with rfl | hq
        · exact hlt
        · exact hbef q hq
    · have hs : simStep init p = init := by simp [simStep, h]
      rw [hs]
      push_neg at h
      rcases ih init with ⟨hall, heq⟩ | ⟨l₁, l₂, hsp, hlt, hbef, haft⟩
      · refine Or.inl ⟨?_, heq⟩
        intro q hq
        rcases List.mem_cons.mp hq with rfl | hq
        · exact h
        · exact hall q hq
      · refine Or.inr ⟨p :: l₁, l₂, by rw [List.cons_append, ← hsp], hlt, ?_, haft⟩
        intro q hq
        rcases List.mem_cons.mp hq with rfl | hq
        · exact lt_of_le_of_lt h hlt
        · exact hbef q hq

lemma find?_of_split {α : Type} (P : α → Bool) (l₁ l₂ : List α) (r : α)
    (h1 : ∀ x ∈ l₁, P x = false) (h2 : P r = true) :
    (l₁ ++ r :: l₂).find? P = some r := by
  induction l₁ with
  | nil => exact List.find?_cons_of_pos l₂ h2
  | cons x xs ih =>
    rw [List.cons_append,
      List.find?_cons_of_neg _ (by rw [h1 x (List.mem_cons_self x xs)]; exact Bool.false_ne_true)]
    exact ih fun y hy => h1 y (List.mem_cons_of_mem x hy)

/-- When some intent's mean similarity exceeds the initialization value `-1`,
the similarity loop returns exactly the first maximal entry of the
similarity list. -/
lemma similarity_loop_firstMax (M : Models) (e : List ℚ)
    (hpos : ∃ p ∈ simsList M e, (-1 : ℚ) < p.2) :
    firstMax (simsList M e) = some (similarity_loop M e) := by
  have key := foldl_simStep_char (simsList M e) (str "general_unclear", -1)
  rw [show List.foldl simStep (str "general_unclear", -1) (simsList M e)
        = similarity_loop M e from rfl] at key
  rcases key with ⟨hall, _⟩ | ⟨l₁, l₂, hsp, _, hbef, haft⟩
  · rcases hpos with ⟨p, hp, hgt⟩
    exact absurd (hall p hp) (not_le.mpr hgt)
  · have hrl : similarity_loop M e ∈ simsList M e := by
      rw [hsp]
      exact List.mem_append_right l₁ (List.mem_cons_self _ l₂)
    have htop : isTop (simsList M e) (similarity_loop M e) = true := by
      simp only [isTop, List.all_eq_true, decide_eq_true_eq]
      intro q hq
      rw [hsp] at hq
      rcases List.mem_append.mp hq with hq | hq
      · exact le_of_lt (hbef q hq)
      · rcases List.mem_cons.mp hq with rfl | hq
        · exact le_rfl
        · exact haft q hq
    have hfail : ∀ x ∈ l₁, isTop (simsList M e) x = false := by
      intro x hx
      rw [Bool.eq_false_iff]
      intro htrue
      rw [isTop] at htrue
      have h2 := List.all_eq_true.mp htrue _ hrl
      exact absurd (decide_eq_true_eq.mp h2) (not_le.mpr (hbef x hx))
    rw [firstMax]
    nth_rewrite 2 [hsp]
    exact find?_of_split _ l₁ l₂ _ hfail htop

/-- The similarity loop result is the initial pair or an entry of the
similarity list. -/
lemma similarity_loop_cases (M : Models) (e : List ℚ) :
    similarity_loop M e = (str "general_unclear", -1) ∨
    similarity_loop M e ∈ simsList M e := by
  have key := foldl_simStep_char (simsList M e) (str "general_unclear", -1)
  rw [show List.foldl simStep (str "general_unclear", -1) (simsList M e)
        = similarity_loop M e from rfl] at key
  rcases key with ⟨_, heq⟩ | ⟨l₁, l₂, hsp, _, _, _⟩
  · exact Or.inl heq
  · refine Or.inr ?_
    rw [hsp]
    exact List.mem_append_right l₁ (List.mem_cons_self _ l₂)

/-- The labels of the similarity list are the catalog labels. -/
lemma simsList_fst (M : Models) (e : List ℚ) :
    (simsList M e).map Prod.fst = intents.map Prod.fst := rfl

/-! Branch selection in `extract_entities` and per-branch characterizations. -/

lemma extract_reminder_eq (M : Models) (text : Str) :
    extract_entities M text (str "create_reminder") =
      match reminderLoop [] (M.nlp text).tokens with
      | .error e => .error e
      | .ok entities =>
        .ok (if containsSub (lower text) (str "remind me to ")
             then setk entities (str "reminder_text")
               (afterFirst (lower text) (str "remind me to "))
             else entities) := rfl

lemma extract_event_eq (M : Models) (text : Str) :
    extract_entities M text (str "create_event") = .ok (eventBranch text) := rfl

lemma extract_location_eq (M : Models) (text intent : Str)
    (h : intent = str "find_location" ∨ intent = str "get_directions") :
    extract_entities M text intent =
      .ok (if (getk (entsLoop [] (M.nlp text).ents) (str "location")).getD [] = ([] : Str)
           then (if (M.nlp text).tokens.any (fun t => decide (lower t.text ∈ location_keywords))
                 then setk (entsLoop [] (M.nlp text).ents) (str "location") text
                 else entsLoop [] (M.nlp text).ents)
           else entsLoop [] (M.nlp text).ents) := by
  simp only [extract_entities]
  rw [if_pos h]

/-- The first-match-and-break entity loop equals `find?` over the entity
list. -/
lemma entsLoop_find (es : List Ent) :
    entsLoop [] es =
      match es.find? (fun e => decide (e.label ∈ locationLabels)) with
      | some e => [(str "location", e.text)]
      | none => [] := by
  induction es with
  | nil => rfl
  | cons e es' ih =>
    rw [entsLoop]
    by_cases h : e.label ∈ locationLabels
    · simp [h, List.find?_cons, setk]
    · simp only [if_neg h, List.find?_cons, decide_eq_false h]
      exact ih

lemma getk_ite_setk_same (c : Prop) [Decidable c] (m : Entities) (k v : Str) :
    getk (if c then setk m k v else m) k = if c then some v else getk m k := by
  by_cases h : c
  · simp [h, getk_setk_same]
  · simp [h]

lemma getk_ite_setk_ne (c : Prop) [Decidable c] (m : Entities) (k v k' : Str) (hk : k ≠ k') :
    getk (if c then setk m k v else m) k' = getk m k' := by
  by_cases h : c
  · simp [h, getk_setk_ne _ _ _ _ hk]
  · simp [h]

lemma eventBranch_title (text : Str) :
    getk (eventBranch text) (str "title")
      = if containsSub text (str "title:")
        then some (eventField text (str "title:")) else none := by
  simp only [eventBranch]
  rw [getk_ite_setk_ne _ _ (str "description") _ (str "title") (by decide),
    getk_ite_setk_ne _ _ (str "location") _ (str "title") (by decide),
    getk_ite_setk_ne _ _ (str "duration") _ (str "title") (by decide),
    getk_ite_setk_ne _ _ (str "time") _ (str "title") (by decide),
    getk_ite_setk_ne _ _ (str "date") _ (str "title") (by decide),
    getk_ite_setk_same]
  rfl

lemma eventBranch_date (text : Str) :
    getk (eventBranch text) (str "date")
      = if containsSub text (str "date:")
        then some (eventField text (str "date:")) else none := by
  simp only [eventBranch]
  rw [getk_ite_setk_ne _ _ (str "description") _ (str "date") (by decide),
    getk_ite_setk_ne _ _ (str "location") _ (str "date") (by decide),
    getk_ite_setk_ne _ _ (str "duration") _ (str "date") (by decide),
    getk_ite_setk_ne _ _ (str "time") _ (str "date") (by decide),
    getk_ite_setk_same,
    getk_ite_setk_ne _ _ (str "title") _ (str "date") (by decide)]
  rfl

lemma eventBranch_time (text : Str) :
    getk (eventBranch text) (str "time")
      = if containsSub text (str "time:")
        then some (eventField text (str "time:")) else none := by
  simp only [eventBranch]
  rw [getk_ite_setk_ne _ _ (str "description") _ (str "time") (by decide),
    getk_ite_setk_ne _ _ (str "location") _ (str "time") (by decide),
    getk_ite_setk_ne _ _ (str "duration") _ (str "time") (by decide),
    getk_ite_setk_same,
    getk_ite_setk_ne _ _ (str "date") _ (str "time") (by decide),
    getk_ite_setk_ne _ _ (str "title") _ (str "time") (by decide)]
  rfl

lemma eventBranch_duration (text : Str) :
    getk (eventBranch text) (str "duration")
      = if containsSub text (str "duration:")
        then some (eventField text (str "duration:")) else none := by
  simp only [eventBranch]
  rw [getk_ite_setk_ne _ _ (str "description") _ (str "duration") (by decide),
    getk_ite_setk_ne _ _ (str "location") _ (str "duration") (by decide),
    getk_ite_setk_same,
    getk_ite_setk_ne _ _ (str "time") _ (str "duration") (by decide),
    getk_ite_setk_ne _ _ (str "date") _ (str "duration") (by decide),
    getk_ite_setk_ne _ _ (str "title") _ (str "duration") (by decide)]
  rfl

lemma eventBranch_location (text : Str) :
    getk (eventBranch text) (str "location")
      = if containsSub text (str "location:")
        then some (eventField text (str "location:")) else none := by
  simp only [eventBranch]
  rw [getk_ite_setk_ne _ _ (str "description") _ (str "location") (by decide),
    getk_ite_setk_same,
    getk_ite_setk_ne _ _ (str "duration") _ (str "location") (by decide),
    getk_ite_setk_ne _ _ (str "time") _ (str "location") (by decide),
    getk_ite_setk_ne _ _ (str "date") _ (str "location") (by decide),
    getk_ite_setk_ne _ _ (str "title") _ (str "location") (by decide)]
  rfl

lemma eventBranch_description (text : Str) :
    getk (eventBranch text) (str "description")
      = if containsSub text (str "description:")
        then some (eventField text (str "description:")) else none := by
  simp only [eventBranch]
  rw [getk_ite_setk_same,
    getk_ite_setk_ne _ _ (str "location") _ (str "description") (by decide),
    getk_ite_setk_ne _ _ (str "duration") _ (str "description") (by decide),
    getk_ite_setk_ne _ _ (str "time") _ (str "description") (by decide),
    getk_ite_setk_ne _ _ (str "date") _ (str "description") (by decide),
    getk_ite_setk_ne _ _ (str "title") _ (str "description") (by decide)]
  rfl

/-- Characterization of a successful `create_reminder` extraction, shared by
several claims. -/
lemma extract_reminder_getk (M : Models) (text : Str) (m : Entities)
    (h : extract_entities M text (str "create_reminder") = .ok m) :
    getk m (str "date") = lastDate (M.nlp text).tokens ∧
    getk m (str "duration") = lastDuration (M.nlp text).tokens ∧
    (containsSub (lower text) (str "remind me to ") = true →
       getk m (str "reminder_text")
         = some (afterFirst (lower text) (str "remind me to "))) := by
  rw [extract_reminder_eq] at h
  cases hL : reminderLoop [] (M.nlp text).tokens with
  | error e =>
    rw [hL] at h
    exact absurd h (by simp)
  | ok ents =>
    rw [hL] at h
    obtain ⟨hd, hu, _⟩ := reminderLoop_ok_getk _ _ _ hL
    have hd2 : getk ents (str "date") = lastDate (M.nlp text).tokens := by
      rw [hd]; exact oget_none_right _
    have hu2 : getk ents (str "duration") = lastDuration (M.nlp text).tokens := by
      rw [hu]; exact oget_none_right _
    have hm : m = (if containsSub (lower text) (str "remind me to ")
        then setk ents (str "reminder_text") (afterFirst (lower text) (str "remind me to "))
        else ents) := (Except.ok.inj h).symm
    refine ⟨?_, ?_, ?_⟩
    · rw [hm]
      rw [getk_ite_setk_ne _ _ (str "reminder_text") _ (str "date") (by decide)]
      exact hd2
    · rw [hm]
      rw [getk_ite_setk_ne _ _ (str "reminder_text") _ (str "duration") (by decide)]
      exact hu2
    · intro hcon
      rw [hm, if_pos hcon, getk_setk_same]

instance {ε α : Type} [DecidableEq ε] [DecidableEq α] : DecidableEq (Except ε α)
  | .ok a, .ok b =>
    if h : a = b then .isTrue (by rw [h]) else .isFalse (fun hh => h (Except.ok.inj hh))
  | .error a, .error b =>
    if h : a = b then .isTrue (by rw [h]) else .isFalse (fun hh => h (Except.error.inj hh))
  | .ok _, .error _ => .isFalse (fun hh => Except.noConfusion hh)
  | .error _, .ok _ => .isFalse (fun hh => Except.noConfusion hh)

/-! Concrete model-state fixtures: a fixture instantiates the black-box
capabilities at one plausible model state (a parse a tokenizer would
produce for the named text, constant cosine similarities, a fixed zero-shot
ranking or an unavailable zero-shot model). -/

/-- A parser token with `like_num = false`. -/
def tokN (s : String) : Token := ⟨str s, false⟩

/-- A parser token with `like_num = true` (a numeric token). -/
def tokNum (s : String) : Token := ⟨str s, true⟩

/-- An empty parse: no tokens, no named entities. -/
def emptyDoc : Doc := ⟨[], []⟩

/-- Model state with constant cosine similarity `0.9` (above threshold) and
an empty parse. -/
def Mhigh : Models :=
  { encode := fun _ => [], cos := fun _ _ => mkRat 9 10,
    zeroShot := fun _ _ => none, nlp := fun _ => emptyDoc }

/-- Model state with constant cosine similarity `-1`. -/
def Mneg : Models :=
  { encode := fun _ => [], cos := fun _ _ => -1,
    zeroShot := fun _ _ => none, nlp := fun _ => emptyDoc }

/-- Model state with constant cosine similarity `0` (below threshold) and an
unavailable zero-shot model. -/
def Mzero : Models :=
  { encode := fun _ => [], cos := fun _ _ => 0,
    zeroShot := fun _ _ => none, nlp := fun _ => emptyDoc }

/-- Model state whose parse of the input is the tokenization of
"Remind me in 5" (the numeric token last) and whose zero-shot fallback ranks
`create_reminder` first. -/
def Mcrash : Models :=
  { encode := fun _ => [], cos := fun _ _ => 0,
    zeroShot := fun _ _ => some [str "create_reminder"],
    nlp := fun _ => ⟨[tokN "Remind", tokN "me", tokN "in", tokNum "5"], []⟩ }

/-- Model state whose parse is the tokenization of
"Remind me to submit my essay at 5 PM today". -/
def Mrem : Models :=
  { encode := fun _ => [], cos := fun _ _ => 0,
    zeroShot := fun _ _ => some [str "create_reminder"],
    nlp := fun _ => ⟨[tokN "Remind", tokN "me", tokN "to", tokN "submit", tokN "my",
                      tokN "essay", tokN "at", tokNum "5", tokN "PM", tokN "today"], []⟩ }

/-- Model state with an empty parse, for marker-only `create_event`
extraction. -/
def Mplain : Models :=
  { encode := fun _ => [], cos := fun _ _ => 0,
    zeroShot := fun _ _ => none, nlp := fun _ => emptyDoc }

/-- Model state whose parse of "Where is the main library?" recognizes the
facility span "main library". -/
def Mloc : Models :=
  { encode := fun _ => [], cos := fun _ _ => 0, zeroShot := fun _ _ => none,
    nlp := fun _ => ⟨[tokN "Where", tokN "is", tokN "the", tokN "main",
                      tokN "library", tokN "?"],
                     [⟨str "main library", str "FAC"⟩]⟩ }

/-- Model state whose parse is the tokenization of
"meet me in 5 administration". -/
def Madmin : Models :=
  { encode := fun _ => [], cos := fun _ _ => 0, zeroShot := fun _ _ => none,
    nlp := fun _ => ⟨[tokN "meet", tokN "me", tokN "in", tokNum "5",
                      tokN "administration"], []⟩ }

/-- Model state whose parse is the tokenization of "remind me in 30 minutes". -/
def Mthirty : Models :=
  { encode := fun _ => [], cos := fun _ _ => 0, zeroShot := fun _ _ => none,
    nlp := fun _ => ⟨[tokN "remind", tokN "me", tokN "in", tokNum "30",
                      tokN "minutes"], []⟩ }

/-! The claim theorems. -/

/-- C1: the claim says `process_query` always returns a well-formed result
object and `extract_entities` never raises, for any input text and any
intent.  The code violates this: in the `create_reminder` branch,
`token.nbor()` raises `IndexError` when a numeric (`like_num`) token is the
final token of the parse, as on the input "Remind me in 5"; the exception
crosses the `process_query` boundary. -/
theorem claim_C1_nbor_crash :
    extract_entities Mcrash (str "Remind me in 5") (str "create_reminder")
      = .error "IndexError" ∧
    process_query Mcrash (str "Remind me in 5") = .error "IndexError" := by decide

/-- C2: every intent label returned by `classify_intent` is a member of the
catalog's key set, on both the similarity path (the loop only ever holds the
initialization label `general_unclear` or a catalog label) and the zero-shot
path (the zero-shot capability, per its contract, ranks only the candidate
labels it was handed, which are exactly the catalog keys). -/
theorem claim_C2_closed_world (M : Models) (text : Str)
    (hz : ∀ ls res, M.zeroShot text ls = some res → ∀ l ∈ res, l ∈ ls)
    (r : Str) (h : classify_intent M text = .ok r) :
    r ∈ intents.map Prod.fst := by
  simp only [classify_intent] at h
  by_cases hc : (similarity_loop M (M.encode text)).2 < threshold
  · rw [if_pos hc] at h
    cases hzs : M.zeroShot text (intents.map Prod.fst) with
    | none => rw [hzs] at h; exact absurd h (by simp)
    | some ls =>
      rw [hzs] at h
      cases ls with
      | nil => exact absurd h (by simp)
      | cons l ls' =>
        have hlr : l = r := Except.ok.inj h
        exact hlr ▸ hz _ _ hzs l (List.mem_cons_self l ls')
  · rw [if_neg hc] at h
    have hr : (similarity_loop M (M.encode text)).1 = r := Except.ok.inj h
    rcases similarity_loop_cases M (M.encode text) with heq | hmem
    · rw [← hr, heq]; decide
    · rw [← hr]
      have hmap := List.mem_map_of_mem Prod.fst hmem
      rwa [simsList_fst] at hmap

/-- C2 witness: the closed-world theorem applied at a concrete model state
and input. -/
theorem claim_C2_witness : (str "get_schedule") ∈ intents.map Prod.fst :=
  claim_C2_closed_world Mhigh (str "hi") (fun _ _ h => nomatch h)
    (str "get_schedule") (by decide)

/-- C3: the claim says empty input resolves deterministically to
`general_unclear` with confidence 0 and empty entities.  The code has no
empty-input special case: `classify_intent("")` follows the ordinary
similarity/fallback path, so its result is fixed by the external models, not
by the code.  At a model state where every cosine similarity is `0.9`, the
empty string classifies as `get_schedule`, not `general_unclear`, and the
confidence is `0.9`, not `0` — while the repo's own test `test_empty_query`
asserts `general_unclear` deterministically. -/
theorem claim_C3_no_empty_guard :
    classify_intent Mhigh (str "") = .ok (str "get_schedule") ∧
    process_query Mhigh (str "") = .ok ⟨str "get_schedule", [], str ""⟩ ∧
    (similarity_loop Mhigh (Mhigh.encode (str ""))).2 = mkRat 9 10 ∧
    (str "get_schedule") ≠ (str "general_unclear") := by decide

/-- C4: the claim says an unavailable or failing zero-shot model must not
crash the pipeline — classification should degrade to `unclear` or to the
similarity candidate.  The code wraps no handler around
`self.classifier(text, candidate_labels)`: when the similarity confidence is
below the threshold (here `0`) and the zero-shot capability fails, the
failure propagates out of `classify_intent` and `process_query`. -/
theorem claim_C4_failure_propagates :
    (similarity_loop Mzero (Mzero.encode (str "good morning"))).2 < threshold ∧
    classify_intent Mzero (str "good morning")
      = .error "zero-shot classification failed" ∧
    process_query Mzero (str "good morning")
      = .error "zero-shot classification failed" := by decide

/-- C5 counterexample: the claim says ties for the maximum mean similarity
are always broken in favor of the first intent in catalog iteration order.
When every mean similarity equals the initialization value `-1`, the strict
comparison never fires and the loop keeps the initialization pair
`("general_unclear", -1)`, although the first catalog intent attaining the
maximum is `get_schedule`. -/
theorem claim_C5_counterexample :
    firstMax (simsList Mneg (Mneg.encode (str "campus"))) = some (str "get_schedule", -1) ∧
    similarity_loop Mneg (Mneg.encode (str "campus")) = (str "general_unclear", -1) ∧
    (str "general_unclear") ≠ (str "get_schedule") := by decide

/-- C5 (amended): if at least one intent's mean cosine similarity exceeds the
initialization value `-1`, the similarity candidate is the first intent in
catalog iteration order attaining the maximal mean, with that maximum as the
confidence (`firstMax`); the zero-shot fallback is invoked exactly when the
confidence is below the `0.5` threshold, in which case the fallback's
top-ranked label unconditionally overrides the candidate. -/
theorem claim_C5_amended (M : Models) (text : Str)
    (hpos : ∃ p ∈ simsList M (M.encode text), (-1 : ℚ) < p.2) :
    firstMax (simsList M (M.encode text)) = some (similarity_loop M (M.encode text)) ∧
    (¬ (similarity_loop M (M.encode text)).2 < threshold →
        classify_intent M text = .ok (similarity_loop M (M.encode text)).1) ∧
    ((similarity_loop M (M.encode text)).2 < threshold →
        ∀ l ls, M.zeroShot text (intents.map Prod.fst) = some (l :: ls) →
          classify_intent M text = .ok l) := by
  refine ⟨similarity_loop_firstMax M (M.encode text) hpos, ?_, ?_⟩
  · intro hc
    simp only [classify_intent]
    rw [if_neg hc]
  · intro hc l ls hzs
    simp only [classify_intent]
    rw [if_pos hc, hzs]

/-- C5 witness: the amended theorem applied at a concrete model state where
all similarities are `0.9`. -/
theorem claim_C5_witness :
    firstMax (simsList Mhigh (Mhigh.encode (str "hello")))
      = some (similarity_loop Mhigh (Mhigh.encode (str "hello"))) ∧
    classify_intent Mhigh (str "hello")
      = .ok (similarity_loop Mhigh (Mhigh.encode (str "hello"))).1 :=
  ⟨(claim_C5_amended Mhigh (str "hello") (by decide)).1,
   (claim_C5_amended Mhigh (str "hello") (by decide)).2.1 (by decide)⟩

/-- C6: for intent `create_reminder`, a successful extraction stores in
`date` the value of the last token containing "tomorrow"/"today" (overwritten
in iteration order, `today` checked after `tomorrow`), in `duration` the
value of the last numeric-token/unit-neighbor pair, and, when the lower-cased
text contains "remind me to ", in `reminder_text` the lower-cased remainder
after the first occurrence of that phrase; on
"Remind me to submit my essay at 5 PM today" this yields `date = "today"` and
`reminder_text = "submit my essay at 5 pm today"`. -/
theorem claim_C6_reminder_extraction :
    (∀ (M : Models) (text : Str) (m : Entities),
        extract_entities M text (str "create_reminder") = .ok m →
        getk m (str "date") = lastDate (M.nlp text).tokens ∧
        getk m (str "duration") = lastDuration (M.nlp text).tokens ∧
        (containsSub (lower text) (str "remind me to ") = true →
           getk m (str "reminder_text")
             = some (afterFirst (lower text) (str "remind me to ")))) ∧
    extract_entities Mrem (str "Remind me to submit my essay at 5 PM today")
        (str "create_reminder")
      = .ok [(str "date", str "today"),
             (str "reminder_text", str "submit my essay at 5 pm today")] :=
  ⟨fun M text m h => extract_reminder_getk M text m h, by decide⟩

/-- C6 witness: the general conjunct applied at the concrete parse of
"Remind me to submit my essay at 5 PM today". -/
theorem claim_C6_witness :
    getk [(str "date", str "today"),
          (str "reminder_text", str "submit my essay at 5 pm today")] (str "date")
      = lastDate (Mrem.nlp (str "Remind me to submit my essay at 5 PM today")).tokens ∧
    getk [(str "date", str "today"),
          (str "reminder_text", str "submit my essay at 5 pm today")] (str "reminder_text")
      = some (afterFirst (lower (str "Remind me to submit my essay at 5 PM today"))
          (str "remind me to ")) :=
  ⟨(claim_C6_reminder_extraction.1 Mrem
      (str "Remind me to submit my essay at 5 PM today") _ (by decide)).1,
   (claim_C6_reminder_extraction.1 Mrem
      (str "Remind me to submit my essay at 5 PM today") _ (by decide)).2.2 (by decide)⟩

/-- C7: for intent `create_event`, each of the six fields is present exactly
when its literal marker occurs in the raw text, with value the trimmed
substring between the marker and the next newline; on
"title: Spring Gala\ndate: 2024-04-20\n" this yields exactly `title` and
`date` and no other keys. -/
theorem claim_C7_event_markers :
    (∀ (M : Models) (text : Str),
        extract_entities M text (str "create_event") = .ok (eventBranch text)) ∧
    (∀ text : Str, getk (eventBranch text) (str "title")
        = if containsSub text (str "title:")
          then some (eventField text (str "title:")) else none) ∧
    (∀ text : Str, getk (eventBranch text) (str "date")
        = if containsSub text (str "date:")
          then some (eventField text (str "date:")) else none) ∧
    (∀ text : Str, getk (eventBranch text) (str "time")
        = if containsSub text (str "time:")
          then some (eventField text (str "time:")) else none) ∧
    (∀ text : Str, getk (eventBranch text) (str "duration")
        = if containsSub text (str "duration:")
          then some (eventField text (str "duration:")) else none) ∧
    (∀ text : Str, getk (eventBranch text) (str "location")
        = if containsSub text (str "location:")
          then some (eventField text (str "location:")) else none) ∧
    (∀ text : Str, getk (eventBranch text) (str "description")
        = if containsSub text (str "description:")
          then some (eventField text (str "description:")) else none) ∧
    extract_entities Mplain (str "title: Spring Gala\ndate: 2024-04-20\n")
        (str "create_event")
      = .ok [(str "title", str "Spring Gala"), (str "date", str "2024-04-20")] :=
  ⟨extract_event_eq, eventBranch_title, eventBranch_date, eventBranch_time,
   eventBranch_duration, eventBranch_location, eventBranch_description, by decide⟩

/-- C8: for intents `find_location` and `get_directions` (given that the
parser produces nonempty entity spans, as spaCy does), `location` is the text
of the first named entity labeled GPE/LOC/ORG/FAC; failing that, if some
token (lower-cased) is in the fixed keyword list, `location` is the entire
original text; failing both, the entity map is empty. -/
theorem claim_C8_location_paths (M : Models) (text intent : Str)
    (hintent : intent = str "find_location" ∨ intent = str "get_directions")
    (hents : ∀ e ∈ (M.nlp text).ents, e.text ≠ []) :
    ∃ m, extract_entities M text intent = .ok m ∧
      match (M.nlp text).ents.find? (fun e => decide (e.label ∈ locationLabels)) with
      | some e => getk m (str "location") = some e.text
      | none =>
        if (M.nlp text).tokens.any (fun t => decide (lower t.text ∈ location_keywords))
        then getk m (str "location") = some text
        else getk m (str "location") = none ∧ m = [] := by
  rw [extract_location_eq M text intent hintent]
  refine ⟨_, rfl, ?_⟩
  rw [entsLoop_find]
  cases hf : (M.nlp text).ents.find? (fun e => decide (e.label ∈ locationLabels)) with
  | some e =>
    have he : e.text ≠ [] := hents e (List.mem_of_find?_eq_some hf)
    simp [hf, getk, he]
  | none =>
    by_cases ha : (M.nlp text).tokens.any (fun t => decide (lower t.text ∈ location_keywords))
          = true
    · simp [hf, ha, getk, setk]
    · simp [hf, ha, getk]

/-- C8 witness: the theorem applied at a model state recognizing the
facility span "main library" in "Where is the main library?". -/
theorem claim_C8_witness :
    ∃ m, extract_entities Mloc (str "Where is the main library?")
          (str "find_location") = .ok m ∧
      match (Mloc.nlp (str "Where is the main library?")).ents.find?
          (fun e => decide (e.label ∈ locationLabels)) with
      | some e => getk m (str "location") = some e.text
      | none =>
        if (Mloc.nlp (str "Where is the main library?")).tokens.any
             (fun t => decide (lower t.text ∈ location_keywords))
        then getk m (str "location") = some (str "Where is the main library?")
        else getk m (str "location") = none ∧ m = [] :=
  claim_C8_location_paths Mloc (str "Where is the main library?")
    (str "find_location") (Or.inl rfl) (by decide)

/-- C9 counterexample: the claim says no present key ever maps to an empty
value.  On the input "title:" with intent `create_event`, the `title` key is
present and maps to the empty string (the marker is at the end of the text,
so the trimmed remainder is empty). -/
theorem claim_C9_counterexample :
    extract_entities Mplain (str "title:") (str "create_event")
      = .ok [(str "title", [])] ∧
    getk [(str "title", ([] : Str))] (str "title") = some [] := by decide

/-- C9 (amended): keys are present only when a value was found, and the
`create_reminder` `date`/`duration` values are never empty (`date` is always
"today" or "tomorrow"), but `create_event` marker fields (and similarly
`reminder_text`) inherit a possibly-empty remainder and may map to the empty
string; a `create_event` field whose marker is absent from the text is
absent from the map. -/
theorem claim_C9_amended :
    (∀ (M : Models) (text : Str) (m : Entities) (v : Str),
        extract_entities M text (str "create_reminder") = .ok m →
        getk m (str "date") = some v → v = str "today" ∨ v = str "tomorrow") ∧
    (∀ (M : Models) (text : Str) (m : Entities) (v : Str),
        extract_entities M text (str "create_reminder") = .ok m →
        getk m (str "duration") = some v → v ≠ []) ∧
    (∀ (M : Models) (text : Str) (m : Entities),
        extract_entities M text (str "create_event") = .ok m →
        ∀ f ∈ [str "title", str "date", str "time", str "duration",
               str "location", str "description"],
          containsSub text (f ++ [':']) = false → getk m f = none) := by
  refine ⟨?_, ?_, ?_⟩
  · intro M text m v h hv
    obtain ⟨hd, _, _⟩ := extract_reminder_getk M text m h
    rw [hd] at hv
    exact lastDate_some _ _ hv
  · intro M text m v h hv
    obtain ⟨_, hu, _⟩ := extract_reminder_getk M text m h
    rw [hu] at hv
    exact lastDuration_ne_nil _ _ hv
  · intro M text m h f hf hmark
    have hm : m = eventBranch text :=
      (Except.ok.inj ((extract_event_eq M text).symm.trans h)).symm
    simp only [List.mem_cons, List.not_mem_nil, or_false] at hf
    rcases hf with rfl | rfl | rfl | rfl | rfl | rfl
    · rw [hm, eventBranch_title,
        if_neg (ne_true_of_eq_false (show containsSub text (str "title:") = false from hmark))]
    · rw [hm, eventBranch_date,
        if_neg (ne_true_of_eq_false (show containsSub text (str "date:") = false from hmark))]
    · rw [hm, eventBranch_time,
        if_neg (ne_true_of_eq_false (show containsSub text (str "time:") = false from hmark))]
    · rw [hm, eventBranch_duration,
        if_neg (ne_true_of_eq_false (show containsSub text (str "duration:") = false from hmark))]
    · rw [hm, eventBranch_location,
        if_neg (ne_true_of_eq_false (show containsSub text (str "location:") = false from hmark))]
    · rw [hm, eventBranch_description,
        if_neg (ne_true_of_eq_false (show containsSub text (str "description:") = false from hmark))]

/-- C9 witness: the amended theorem's first conjunct applied at the concrete
reminder example. -/
theorem claim_C9_witness :
    (str "today") = str "today" ∨ (str "today") = str "tomorrow" :=
  claim_C9_amended.1 Mrem (str "Remind me to submit my essay at 5 PM today")
    [(str "date", str "today"),
     (str "reminder_text", str "submit my essay at 5 pm today")]
    (str "today") (by decide) (by decide)

/-- C10: the duration-unit test is substring containment on the full text of
the numeric token's immediate right neighbor — any neighbor containing
"hour" or "min" anywhere qualifies, including "administration" — and the
stored value is the numeric token's text, a space, and the neighbor's full
text ("30 minutes", "5 administration"). -/
theorem claim_C10_duration_containment :
    (∀ (M : Models) (text : Str) (m : Entities) (pre : List Token) (t nb : Token),
        (M.nlp text).tokens = pre ++ [t, nb] →
        t.like_num = true →
        (containsSub nb.text (str "hour") || containsSub nb.text (str "min")) = true →
        extract_entities M text (str "create_reminder") = .ok m →
        getk m (str "duration") = some (t.text ++ str " " ++ nb.text)) ∧
    containsSub (str "administration") (str "min") = true ∧
    extract_entities Madmin (str "meet me in 5 administration")
        (str "create_reminder")
      = .ok [(str "duration", str "5 administration")] ∧
    extract_entities Mthirty (str "remind me in 30 minutes")
        (str "create_reminder")
      = .ok [(str "duration", str "30 minutes")] := by
  refine ⟨?_, by decide, by decide, by decide⟩
  intro M text m pre t nb htoks hlike hcond h
  obtain ⟨_, hu, _⟩ := extract_reminder_getk M text m h
  have hdur : durOf t nb = some (t.text ++ str " " ++ nb.text) := by
    simp [durOf, hlike, hcond]
  rw [hu, htoks, lastDuration_append_pair pre t nb _ hdur]

/-- C10 witness: the general conjunct applied at the concrete parse of
"meet me in 5 administration". -/
theorem claim_C10_witness :
    getk [(str "duration", str "5 administration")] (str "duration")
      = some ((tokNum "5").text ++ str " " ++ (tokN "administration").text) :=
  claim_C10_duration_containment.1 Madmin (str "meet me in 5 administration")
    [(str "duration", str "5 administration")]
    [tokN "meet", tokN "me", tokN "in"] (tokNum "5") (tokN "administration")
    rfl rfl (by decide) (by decide)

end CampusCopilot
